import Mathlib

/-!
Verification of the ark-project client-side order-lifecycle engine
against its design specification.

The embedding below follows the TypeScript sources:
- `packages/core/src/actions/read/getOrderStatus.ts` (status read),
- `packages/react/src/hooks/useCancelCollectionOffer.ts` (cancel hook),
- the per-network contract address tables (auto-generated constants file).
Components of the core that the repository only declares or calls
(approval coordinator, order submitter, intent hashing, registry
resolution, status polling) are modelled from the specification text;
each such definition carries a doc comment starting `Modelled from the
spec:`.
-/

namespace Ark

/-- Chain addresses are hex strings, as in the source address tables. -/
abbrev Address := String

/-- Logical contract role names (keys of the address tables). -/
abbrev Role := String

/-- A contract ABI, as returned by `getClassAt`; the entries' content is
irrelevant to the claims, only presence/absence matters. -/
abbrev Abi := List String

/-- Embedding of starknet.js `CairoCustomEnum`: a map from variant names to
optionally-present values; exactly one variant is active in a well-formed
chain response. -/
structure CairoCustomEnum where
  variants : List (String × Option Nat)
deriving DecidableEq, Repr

/-- `CairoCustomEnum.activeVariant()`: the name of the first variant whose
value is present (`undefined` entries are skipped). -/
def CairoCustomEnum.activeVariant (e : CairoCustomEnum) : String :=
  match e.variants.find? (fun p => p.2.isSome) with
  | some p => p.1
  | none => ""

/-- The slice of `createConfig.ts`'s `Config` that the embedded actions
read: the bound executor contract address and the currency contract
address. -/
structure Config where
  starknetExecutorContract : Address
  starknetCurrencyContract : Address
deriving DecidableEq, Repr

/-- The chain as seen through the provider: `getClassAt(addr).abi`, and the
`get_order_status` view of the contract deployed at an address, keyed by
order hash. -/
structure Chain where
  classAbi : Address → Option Abi
  orderStatusOf : Address → Nat → CairoCustomEnum

/-- Execution trace of one `getOrderStatus` call: which address the ABI was
looked up at, which address the `Contract` object was constructed for,
which address the `get_order_status` call targeted, and the outcome
(`Except.error` embeds a thrown `Error`). -/
structure GetOrderStatusTrace where
  abiLookupAddress : Address
  contractAddress : Option Address
  statusCallAddress : Option Address
  result : Except String String
deriving Repr

/-- Embedding of `getOrderStatus` (`getOrderStatus.ts`): fetch the class at
`config.starknetExecutorContract`; if its ABI is `undefined`, throw
`"no abi."` before constructing the contract; otherwise construct the
contract at the same executor address, call `get_order_status` with the
order hash, and return the active variant name of the reported enum as a
string. -/
def getOrderStatus (config : Config) (chain : Chain) (orderHash : Nat) :
    GetOrderStatusTrace :=
  match chain.classAbi config.starknetExecutorContract with
  | none =>
    { abiLookupAddress := config.starknetExecutorContract
      contractAddress := none
      statusCallAddress := none
      result := Except.error "no abi." }
  | some _ =>
    let addr := config.starknetExecutorContract
    let reported := chain.orderStatusOf addr orderHash
    { abiLookupAddress := addr
      contractAddress := some addr
      statusCallAddress := some addr
      result := Except.ok reported.activeVariant }

/-- The client `OrderStatus` values listed by the specification (§3); the
claimed translation table would map every chain tag into this set, with
`"Unknown"` as the fallback. -/
def clientOrderStatuses : List String :=
  ["PendingApproval", "PendingSubmission", "Open", "Executed", "Cancelled",
   "Expired", "Unknown"]

/-- A concrete chain whose `get_order_status` reports an enum with active
tag `"Fulfilled"`, a tag outside the client `OrderStatus` set. -/
def fulfilledChain : Chain :=
  { classAbi := fun _ => some ["core::order::get_order_status"]
    orderStatusOf := fun _ _ => ⟨[("Fulfilled", some 0)]⟩ }

/-- A concrete configuration for evaluating the embedded actions. -/
def sampleConfig : Config :=
  { starknetExecutorContract :=
      "0x73148536f8ea9546e92761d11515548cc433df46883d5ee98871a6f63a0bbbc"
    starknetCurrencyContract :=
      "0x200184bde479ccffa50a89485417c907bc1d3779f9b1863d2158733135facce" }

/-- A concrete chain whose `getClassAt` returns an undefined ABI. -/
def noAbiChain : Chain :=
  { classAbi := fun _ => none
    orderStatusOf := fun _ _ => ⟨[]⟩ }

/-- The Goerli (legacy test network) address table, copied from the
auto-generated contract constants file. -/
def GOERLI_CONTRACTS : List (Role × Address) :=
  [("nftContract",
    "0x22411b480425fe6e627fdf4d1b6ac7f8567314ada5617a0a6d8ef3e74b69436"),
   ("messaging",
    "0x2c3d3e0c37d29364a13ba8cff046e7bc5624655a72526961876a1c8bb3f63c8"),
   ("executor",
    "0x73148536f8ea9546e92761d11515548cc433df46883d5ee98871a6f63a0bbbc"),
   ("orderbook",
    "0x66f1e6acf9bdbd23837b2eea271430298b355c506978edb132737e7fcb6b310")]

/-- The Sepolia address table: empty in the source. -/
def SEPOLIA_CONTRACTS : List (Role × Address) := []

/-- The Mainnet address table, copied from the auto-generated contract
constants file. -/
def MAINNET_CONTRACTS : List (Role × Address) :=
  [("nftContract",
    "0x32d99485b22f2e58c8a0206d3b3bb259997ff0db70cffd25585d7dd9a5b0546"),
   ("messaging",
    "0x57d45cc46de463f7ae63b74ce9b6b6b496a1178b02e7ad04d7c307caa698b7b"),
   ("executor",
    "0x7b42945bc47001db92fe1b9739d753925263f2f1036c2ae1f87536c916ee6a"),
   ("orderbook",
    "0x785873b81c8a3f076270868418c783e8faa5f2b86b87a1754947c650868feb8")]

/-- The development-network address table, copied from the auto-generated
contract constants file; the only table carrying the `"eth"` currency
role. -/
def DEV_CONTRACTS : List (Role × Address) :=
  [("messaging",
    "0x3cb72f2da873bf35672d719161aabfebcd3a021b717cfbde576c43f58791704"),
   ("executor",
    "0x4976035b0b9b4a651751508b8df0ee054f2b25427625949ffc6487ea4439fa"),
   ("nftContract",
    "0x42c3bf5aa286bf34be0f7ab7312ad90c485134343a35c004091bd61b1267c6e"),
   ("eth",
    "0x200184bde479ccffa50a89485417c907bc1d3779f9b1863d2158733135facce"),
   ("orderbook",
    "0x34b25722ae80d1ca27555f6297237171570876974e62e7ef612e9942d08624c")]

/-- The Address Registry's failure mode: looking up a role absent from the
bound network's table is a configuration error. -/
inductive RegistryError where
  | UnknownRoleError
deriving DecidableEq, Repr

/-- Modelled from the spec: the Address Registry's `resolve` operation
(§4.1) is not among the source files, only its per-network tables are.
`resolve(role)` looks the role up in the bound network's table and fails
with `UnknownRoleError` when the role is absent, never returning a
default address. -/
def resolve (table : List (Role × Address)) (role : Role) :
    Except RegistryError Address :=
  match table.lookup role with
  | some addr => Except.ok addr
  | none => Except.error RegistryError.UnknownRoleError

/-- Events observable during one `submit` run: approval broadcast and
inclusion (carrying the approved amount), then order-creation broadcast
and inclusion. -/
inductive SubmitEvent where
  | approveBroadcast (amount : Nat)
  | approveIncluded (amount : Nat)
  | createBroadcast
  | createIncluded
deriving DecidableEq, Repr

/-- Modelled from the spec: the Approval Coordinator's `ensureAllowance`
(§4.3) is not among the source files. It reads the current allowance; if
`current >= required` it returns immediately with no transaction;
otherwise it broadcasts one approval for exactly `required` and awaits
its inclusion before returning. The returned list is the event trace of
the call, in order. -/
def ensureAllowanceEvents (current required : Nat) : List SubmitEvent :=
  if required ≤ current then []
  else [SubmitEvent.approveBroadcast required,
        SubmitEvent.approveIncluded required]

/-- The approval transactions broadcast in an event trace (each recorded by
its approved amount). -/
def approvalsIssued (events : List SubmitEvent) : List Nat :=
  events.filterMap fun e =>
    match e with
    | SubmitEvent.approveBroadcast a => some a
    | _ => none

/-- Modelled from the spec: the Order Submitter's `submit` sequence (§4.5)
is not among the source files. After `ensureAllowance` completes, the
order-creation write is broadcast and its inclusion awaited; the trace
concatenates the coordinator's events with the creation events. -/
def submitEvents (current required : Nat) : List SubmitEvent :=
  ensureAllowanceEvents current required ++
    [SubmitEvent.createBroadcast, SubmitEvent.createIncluded]

/-- Scanning a trace front to back: `true` iff no `createBroadcast` occurs
before an `approveIncluded` with the given amount has been observed. -/
def inclusionBeforeCreate (amount : Nat) : List SubmitEvent → Bool
  | [] => true
  | SubmitEvent.createBroadcast :: _ => false
  | SubmitEvent.approveIncluded a :: rest =>
    if a = amount then true else inclusionBeforeCreate amount rest
  | _ :: rest => inclusionBeforeCreate amount rest

/-- The order intent's fields (§3): broker, token contract, optional token
id (absent for collection-wide offers), amount range, currency and
expiration; the anti-collision nonce is kept separate. -/
structure OrderIntent where
  brokerId : Nat
  tokenAddress : Nat
  tokenId : Option Nat
  startAmount : Nat
  endAmount : Nat
  currencyAddress : Nat
  expiration : Nat
deriving DecidableEq, Repr

/-- Modelled from the spec: the Intent Builder's canonical field encoding
(§4.4) is not among the source files. The intent's fields are encoded in
one fixed canonical order (an absent `tokenId` is distinguished from
every present one) and combined with the injective pairing function, so
distinct canonical encodings stay distinct. -/
def encodeIntent (i : OrderIntent) : Nat :=
  [i.brokerId, i.tokenAddress,
   (match i.tokenId with | none => 0 | some t => t + 1),
   i.startAmount, i.endAmount, i.currencyAddress,
   i.expiration].foldl Nat.pair 0

/-- Modelled from the spec: the deterministic order hash (§3, §4.4) over
the canonical field encoding, including the nonce. -/
def orderHash (i : OrderIntent) (nonce : Nat) : Nat :=
  Nat.pair (encodeIntent i) nonce

/-- A concrete intent for evaluating the hash. -/
def sampleIntent : OrderIntent :=
  { brokerId := 1, tokenAddress := 2, tokenId := some 3, startAmount := 100,
    endAmount := 100, currencyAddress := 4, expiration := 99 }

/-- On-chain order state as the Status Resolver reads it: the chain tag
reported for each order hash. -/
abbrev ChainState := Nat → String

/-- The resolver's single status read (§4.6): one view call, returning the
chain-reported tag for the order hash. -/
def statusRead (chain : ChainState) (orderHash : Nat) : String :=
  chain orderHash

/-- Outcome of `awaitStatus`: either a target status was reached, or the
caller-supplied deadline expired. -/
inductive AwaitResult where
  | reached (tag : String)
  | TimeoutError
deriving DecidableEq, Repr

/-- Modelled from the spec: the Status Resolver's polling read `awaitStatus`
(§4.6, §5) is not among the source files. It polls once per remaining
deadline tick; if the read status is among the targets it returns it,
otherwise it re-polls; when the deadline reaches zero it returns
`TimeoutError`. The chain state is returned alongside the result: the
poll only reads, so cancellation hands back the chain unchanged. -/
def awaitStatus (chain : ChainState) (orderHash : Nat)
    (targets : List String) : Nat → AwaitResult × ChainState
  | 0 => (AwaitResult.TimeoutError, chain)
  | deadline + 1 =>
    if statusRead chain orderHash ∈ targets then
      (AwaitResult.reached (statusRead chain orderHash), chain)
    else
      awaitStatus chain orderHash targets deadline

/-- A chain on which every order is stuck reporting `"PendingSubmission"`. -/
def pendingChain : ChainState := fun _ => "PendingSubmission"

/-- The reactive hook's progress flag (`packages/react` `Status` type). -/
inductive HookStatus where
  | idle
  | loading
  | success
  | error
deriving DecidableEq, Repr

/-- Observable outcome of one call of the `cancel` function returned by
`useCancelCollectionOffer`: the `setStatus` calls in order, the errors
passed to `console.error`, and the exception (if any) escaping to the
caller. -/
structure CancelRun (E : Type) where
  statusUpdates : List HookStatus
  loggedErrors : List E
  thrown : Option E
deriving Repr

/-- Embedding of the `cancel` function of `useCancelCollectionOffer.ts`,
parametrised by the outcome of the awaited `cancelCollectionOffer` call:
inside a try block it sets status `"loading"`, awaits the cancellation,
and sets `"success"`; any failure is caught, status is set to `"error"`
and the error logged — nothing is rethrown. -/
def useCancelCollectionOfferCancel {E : Type} (outcome : Except E Unit) :
    CancelRun E :=
  match outcome with
  | Except.ok _ =>
    { statusUpdates := [HookStatus.loading, HookStatus.success]
      loggedErrors := []
      thrown := none }
  | Except.error e =>
    { statusUpdates := [HookStatus.loading, HookStatus.error]
      loggedErrors := [e]
      thrown := none }

end Ark

namespace Ark

/-- C1 (counterexample): the claim says a chain tag not in the translation
table maps to `Unknown`; but on a chain reporting the tag `"Fulfilled"`,
which is not a client `OrderStatus` value, `getOrderStatus` returns
`"Fulfilled"` itself, not `"Unknown"` — the code has no translation table
at all. -/
theorem getOrderStatus_unrecognized_tag_not_unknown :
    (getOrderStatus sampleConfig fulfilledChain 1).result =
      Except.ok "Fulfilled" ∧
    "Fulfilled" ∉ clientOrderStatuses ∧
    (getOrderStatus sampleConfig fulfilledChain 1).result ≠
      Except.ok "Unknown" := by
  refine ⟨rfl, by decide, ?_⟩
  intro h
  simp [getOrderStatus, sampleConfig, fulfilledChain,
    CairoCustomEnum.activeVariant, List.find?] at h

/-- C1 (amended): `getOrderStatus` performs the identity translation on the
chain-reported tag: whenever the ABI resolves, it returns exactly the
active variant name of the reported enum as a string — total and
single-valued on every tag and never raising, but an unrecognized tag is
returned verbatim rather than mapped to `Unknown`. -/
theorem getOrderStatus_returns_raw_variant (config : Config) (chain : Chain)
    (orderHash : Nat) (abi : Abi)
    (habi : chain.classAbi config.starknetExecutorContract = some abi) :
    (getOrderStatus config chain orderHash).result =
      Except.ok
        ((chain.orderStatusOf config.starknetExecutorContract
            orderHash).activeVariant) := by
  simp [getOrderStatus, habi]

/-- C1 witness: the amended theorem evaluated on the concrete chain that
reports `"Fulfilled"`. -/
theorem getOrderStatus_returns_raw_variant_witness :
    (getOrderStatus sampleConfig fulfilledChain 1).result =
      Except.ok
        ((fulfilledChain.orderStatusOf
            sampleConfig.starknetExecutorContract 1).activeVariant) :=
  getOrderStatus_returns_raw_variant sampleConfig fulfilledChain 1
    ["core::order::get_order_status"] rfl

/-- C2: when the chain returns an undefined ABI for the executor contract,
`getOrderStatus` fails with the interface-resolution error `"no abi."`
and aborts before constructing the contract or issuing the
`get_order_status` read. -/
theorem getOrderStatus_no_abi_aborts (config : Config) (chain : Chain)
    (orderHash : Nat)
    (habi : chain.classAbi config.starknetExecutorContract = none) :
    (getOrderStatus config chain orderHash).result =
      Except.error "no abi." ∧
    (getOrderStatus config chain orderHash).contractAddress = none ∧
    (getOrderStatus config chain orderHash).statusCallAddress = none := by
  simp [getOrderStatus, habi]

/-- C2 witness: the abort behaviour evaluated on a concrete chain whose
`getClassAt` yields no ABI. -/
theorem getOrderStatus_no_abi_aborts_witness :
    (getOrderStatus sampleConfig noAbiChain 7).result =
      Except.error "no abi." ∧
    (getOrderStatus sampleConfig noAbiChain 7).contractAddress = none ∧
    (getOrderStatus sampleConfig noAbiChain 7).statusCallAddress = none :=
  getOrderStatus_no_abi_aborts sampleConfig noAbiChain 7 rfl

/-- C9: every address `getOrderStatus` touches — the ABI lookup, the
constructed contract, and the `get_order_status` call — is the single
configured `starknetExecutorContract`; no separately configured
order-book address is consulted. -/
theorem getOrderStatus_uses_executor_address (config : Config)
    (chain : Chain) (orderHash : Nat) :
    (getOrderStatus config chain orderHash).abiLookupAddress =
      config.starknetExecutorContract ∧
    ((getOrderStatus config chain orderHash).contractAddress = none ∨
     (getOrderStatus config chain orderHash).contractAddress =
       some config.starknetExecutorContract) ∧
    ((getOrderStatus config chain orderHash).statusCallAddress = none ∨
     (getOrderStatus config chain orderHash).statusCallAddress =
       some config.starknetExecutorContract) := by
  cases habi : chain.classAbi config.starknetExecutorContract <;>
    simp [getOrderStatus, habi]

/-- A role absent from a table's key list is never found by `List.lookup`. -/
theorem lookup_eq_none_of_not_mem_keys (table : List (Role × Address))
    (role : Role) (h : role ∉ table.map Prod.fst) :
    table.lookup role = none := by
  induction table with
  | nil => rfl
  | cons p rest ih =>
    rcases p with ⟨k, v⟩
    simp only [List.map_cons, List.mem_cons] at h
    push_neg at h
    obtain ⟨hk, hrest⟩ := h
    simpa [List.lookup, beq_eq_false_iff_ne.mpr hk] using ih hrest

/-- C6: for every role name absent from the bound network's address table,
`resolve` fails with `UnknownRoleError` rather than returning a silent
default address. -/
theorem resolve_missing_role_errors (table : List (Role × Address))
    (role : Role) (h : role ∉ table.map Prod.fst) :
    resolve table role = Except.error RegistryError.UnknownRoleError := by
  simp [resolve, lookup_eq_none_of_not_mem_keys table role h]

/-- C6 witness: `"executor"` is absent from the (empty) Sepolia table and
`"eth"` is absent from the Goerli table; both lookups fail with
`UnknownRoleError`. -/
theorem resolve_missing_role_errors_witness :
    resolve SEPOLIA_CONTRACTS "executor" =
      Except.error RegistryError.UnknownRoleError ∧
    resolve GOERLI_CONTRACTS "eth" =
      Except.error RegistryError.UnknownRoleError :=
  ⟨resolve_missing_role_errors SEPOLIA_CONTRACTS "executor" (by decide),
   resolve_missing_role_errors GOERLI_CONTRACTS "eth" (by decide)⟩

/-- C10: the role sets of the per-network tables are not uniform: the
Sepolia table is empty, so every role lookup on it fails with
`UnknownRoleError`; and the `"eth"` currency role is present only in the
dev table, absent from both Goerli and Mainnet. -/
theorem address_tables_role_sets_not_uniform :
    SEPOLIA_CONTRACTS = [] ∧
    (∀ role : Role,
      resolve SEPOLIA_CONTRACTS role =
        Except.error RegistryError.UnknownRoleError) ∧
    "eth" ∈ DEV_CONTRACTS.map Prod.fst ∧
    "eth" ∉ GOERLI_CONTRACTS.map Prod.fst ∧
    "eth" ∉ MAINNET_CONTRACTS.map Prod.fst :=
  ⟨rfl, fun _ => rfl, by decide, by decide, by decide⟩

/-- C3: when the current allowance already covers the required amount,
`ensureAllowance` issues zero transactions; otherwise it broadcasts
exactly one approval, for exactly the required amount, and observes its
inclusion before returning (the trace ends with the inclusion event). -/
theorem ensureAllowance_idempotent_and_exact (current required : Nat) :
    (required ≤ current →
      ensureAllowanceEvents current required = [] ∧
      approvalsIssued (ensureAllowanceEvents current required) = []) ∧
    (current < required →
      approvalsIssued (ensureAllowanceEvents current required) =
        [required] ∧
      ensureAllowanceEvents current required =
        [SubmitEvent.approveBroadcast required,
         SubmitEvent.approveIncluded required]) := by
  constructor
  · intro h
    simp [ensureAllowanceEvents, h, approvalsIssued]
  · intro h
    simp [ensureAllowanceEvents, Nat.not_le.mpr h, approvalsIssued,
      List.filterMap]

/-- C3 witness: allowance 200 against requirement 50 issues no transaction;
allowance 0 against requirement 100 issues exactly one approval for 100
and awaits its inclusion. -/
theorem ensureAllowance_idempotent_and_exact_witness :
    (ensureAllowanceEvents 200 50 = [] ∧
      approvalsIssued (ensureAllowanceEvents 200 50) = []) ∧
    (approvalsIssued (ensureAllowanceEvents 0 100) = [100] ∧
      ensureAllowanceEvents 0 100 =
        [SubmitEvent.approveBroadcast 100,
         SubmitEvent.approveIncluded 100]) :=
  ⟨(ensureAllowance_idempotent_and_exact 200 50).1 (by decide),
   (ensureAllowance_idempotent_and_exact 0 100).2 (by decide)⟩

/-- C4: whenever an approval was required, the `submit` trace never reaches
the order-creation broadcast before the approval's inclusion has been
observed. -/
theorem submit_create_after_approval_inclusion (current required : Nat)
    (h : current < required) :
    inclusionBeforeCreate required (submitEvents current required) =
      true := by
  simp [submitEvents, ensureAllowanceEvents, Nat.not_le.mpr h,
    inclusionBeforeCreate]

/-- C4 witness: the causal ordering evaluated on a run that needed an
approval for amount 100 starting from allowance 0. -/
theorem submit_create_after_approval_inclusion_witness :
    inclusionBeforeCreate 100 (submitEvents 0 100) = true :=
  submit_create_after_approval_inclusion 0 100 (by decide)

/-- C5: the order hash is deterministic — recomputing it on the same intent
and nonce yields the same value — and nonce-sensitive: distinct nonces
yield distinct hashes for the same intent. -/
theorem orderHash_deterministic_and_nonce_sensitive (i : OrderIntent)
    (n n1 n2 : Nat) (hne : n1 ≠ n2) :
    orderHash i n = orderHash i n ∧ orderHash i n1 ≠ orderHash i n2 := by
  refine ⟨rfl, fun h => hne ?_⟩
  have h2 := congrArg Nat.unpair h
  simpa [orderHash, Nat.unpair_pair] using h2

/-- C5 witness: the hash of a concrete intent is repeatable and differs
between nonces 0 and 1. -/
theorem orderHash_deterministic_and_nonce_sensitive_witness :
    orderHash sampleIntent 0 = orderHash sampleIntent 0 ∧
    orderHash sampleIntent 0 ≠ orderHash sampleIntent 1 :=
  orderHash_deterministic_and_nonce_sensitive sampleIntent 0 0 1 (by decide)

/-- C7: if the current chain status of the order is never among the target
statuses, `awaitStatus` returns `TimeoutError` once the deadline
expires, and the chain state it hands back is exactly the input chain —
cancellation of the poll mutates nothing, so a subsequent single
`statusRead` still reflects the true on-chain state. -/
theorem awaitStatus_timeout_preserves_chain (chain : ChainState)
    (h : Nat) (targets : List String) (deadline : Nat)
    (hmiss : statusRead chain h ∉ targets) :
    awaitStatus chain h targets deadline =
      (AwaitResult.TimeoutError, chain) ∧
    statusRead (awaitStatus chain h targets deadline).2 h =
      statusRead chain h := by
  have hrun : awaitStatus chain h targets deadline =
      (AwaitResult.TimeoutError, chain) := by
    induction deadline with
    | zero => rfl
    | succ d ih => simpa [awaitStatus, hmiss] using ih
  exact ⟨hrun, by rw [hrun]⟩

/-- C7 witness: a 1-tick deadline on an order stuck `"PendingSubmission"`,
awaiting `"Open"`: the poll times out and the chain state read
afterwards is unchanged. -/
theorem awaitStatus_timeout_preserves_chain_witness :
    awaitStatus pendingChain 5 ["Open"] 1 =
      (AwaitResult.TimeoutError, pendingChain) ∧
    statusRead (awaitStatus pendingChain 5 ["Open"] 1).2 5 =
      statusRead pendingChain 5 :=
  awaitStatus_timeout_preserves_chain pendingChain 5 ["Open"] 1 (by decide)

/-- C8: the `cancel` function of `useCancelCollectionOffer` never rethrows:
for every outcome of the underlying `cancelCollectionOffer`, nothing
escapes to the caller, the first status set is `"loading"`, the final
status is `"success"` on success and `"error"` on failure, and exactly
the failure's error is logged. -/
theorem useCancelCollectionOffer_cancel_never_throws {E : Type}
    (outcome : Except E Unit) :
    (useCancelCollectionOfferCancel outcome).thrown = none ∧
    (useCancelCollectionOfferCancel outcome).statusUpdates.head? =
      some HookStatus.loading ∧
    (useCancelCollectionOfferCancel outcome).statusUpdates =
      [HookStatus.loading,
       match outcome with
       | Except.ok _ => HookStatus.success
       | Except.error _ => HookStatus.error] ∧
    (useCancelCollectionOfferCancel outcome).loggedErrors =
      (match outcome with
       | Except.ok _ => []
       | Except.error e => [e]) := by
  cases outcome <;> simp [useCancelCollectionOfferCancel]

end Ark
